import Mathlib

/-!
Verification of the day/night decision engine of `auto-night-mode`.

The Rust source (`src/main.rs`) is embedded shallowly:
* `NaiveTime` values become `TimeOfDay` records compared through their
  seconds-from-midnight value, exactly as chrono orders `NaiveTime`.
* `LocationInfo::get_theme` becomes a pure function of the current time.
* `LocationInfo::estimate`'s match on `spa::calc_sunrise_and_set` becomes a
  function of the already-computed `SunriseAndSet` value (the network fetch,
  the solar computation itself and the UTC→local conversion are external).
* `Theme::set` becomes an oracle `Nat → Except ε Unit` giving the outcome of
  each successive applier invocation; `main`'s loop becomes `runTicks`, a
  fold over the list of sampled tick times, and `main` becomes `mainRun`.
-/

namespace AutoNightMode

/-- A wall-clock time of day, mirroring chrono's `NaiveTime` (no sub-second
part is ever produced or compared by this program at whole-second grain). -/
structure TimeOfDay where
  hour : Nat
  minute : Nat
  second : Nat
deriving DecidableEq

/-- Seconds from midnight; chrono's `NaiveTime` compares by this value. -/
def TimeOfDay.toSecs (t : TimeOfDay) : Nat :=
  t.hour * 3600 + t.minute * 60 + t.second

/-- A valid time of day, `00:00:00 .. 23:59:59`. -/
def TimeOfDay.isValid (t : TimeOfDay) : Prop :=
  t.hour < 24 ∧ t.minute < 60 ∧ t.second < 60

instance (t : TimeOfDay) : Decidable t.isValid :=
  inferInstanceAs (Decidable (_ ∧ _ ∧ _))

/-- `struct LocationInfo { sunset: NaiveTime, sunrise: NaiveTime }` -/
structure LocationInfo where
  sunset : TimeOfDay
  sunrise : TimeOfDay
deriving DecidableEq

/-- `enum Theme { Night, Day }` -/
inductive Theme where
  | Night : Theme
  | Day : Theme
deriving DecidableEq

/-- `LocationInfo::get_theme`, with `Local::now().time()` made an explicit
argument `now`:
`if now > self.sunset || now < self.sunrise { Night } else { Day }`. -/
def LocationInfo.get_theme (info : LocationInfo) (now : TimeOfDay) : Theme :=
  if now.toSecs > info.sunset.toSecs ∨ now.toSecs < info.sunrise.toSecs then
    Theme.Night
  else
    Theme.Day

/-- `spa::SunriseAndSet`, with the two `Daylight` timestamps already converted
to local times of day, in the order the `spa` crate stores them. -/
inductive SunriseAndSet where
  | PolarNight : SunriseAndSet
  | PolarDay : SunriseAndSet
  | Daylight : TimeOfDay → TimeOfDay → SunriseAndSet
deriving DecidableEq

/-- The match in `LocationInfo::estimate` on the result of
`spa::calc_sunrise_and_set`.  The source binds the two `Daylight` fields as
`(set, rise)` and then builds `(sunset, sunrise) = (rise.time(), set.time())`;
the binder names below mirror that destructuring exactly.  Every non-`Daylight`
outcome yields the sentinel `sunset = 23:59:59`, `sunrise = 00:00:00`. -/
def LocationInfo.estimate (r : SunriseAndSet) : LocationInfo :=
  match r with
  | SunriseAndSet.Daylight set rise => { sunset := rise, sunrise := set }
  | _ => { sunset := ⟨23, 59, 59⟩, sunrise := ⟨0, 0, 0⟩ }

/-- Modelled from the spec: decoding of one ASCII digit, used by the Location
Cache parser, which is absent from `src/` (only described in §4.3/§6 of the
specification). -/
def decodeDigit (c : Char) : Option Nat :=
  if c.isDigit then some (c.toNat - 48) else none

/-- Modelled from the spec: two-digit zero-padded rendering of a field of the
`HH:MM:SS` cache format (§6: 24-hour clock with seconds). -/
def encode2 (n : Nat) : List Char :=
  [Nat.digitChar (n / 10), Nat.digitChar (n % 10)]

/-- Modelled from the spec: rendering of one time-of-day in the fixed
`HH:MM:SS` cache format. -/
def formatTime (t : TimeOfDay) : List Char :=
  encode2 t.hour ++ ':' :: (encode2 t.minute ++ ':' :: encode2 t.second)

/-- Modelled from the spec: the Location Cache `store`, absent from `src/`.
Serializes the two time-of-day fields of a `LocationInfo` in the fixed text
format `HH:MM:SS,HH:MM:SS` (§4.3); the result is the cache file's content as
a character sequence. -/
def store (info : LocationInfo) : List Char :=
  formatTime info.sunset ++ ',' :: formatTime info.sunrise

/-- Modelled from the spec: parsing of one `HH:MM:SS` field of the cache
format, rejecting anything that is not two digits, `:`, two digits, `:`,
two digits denoting a valid time of day. -/
def parseTime (cs : List Char) : Option TimeOfDay :=
  match cs with
  | [h1, h2, c1, m1, m2, c2, s1, s2] =>
    if c1 = ':' ∧ c2 = ':' then
      (decodeDigit h1).bind fun a =>
      (decodeDigit h2).bind fun b =>
      (decodeDigit m1).bind fun c =>
      (decodeDigit m2).bind fun d =>
      (decodeDigit s1).bind fun e =>
      (decodeDigit s2).bind fun f =>
      let t : TimeOfDay := ⟨10 * a + b, 10 * c + d, 10 * e + f⟩
      if t.isValid then some t else none
    else none
  | _ => none

/-- Modelled from the spec: the Location Cache `load`, absent from `src/`.
Reads back the fixed `HH:MM:SS,HH:MM:SS` format (§4.3/§6); any malformed
content yields `none` rather than an error. -/
def load (cs : List Char) : Option LocationInfo :=
  match cs with
  | a1 :: a2 :: a3 :: a4 :: a5 :: a6 :: a7 :: a8 :: c :: rest =>
    if c = ',' then
      (parseTime [a1, a2, a3, a4, a5, a6, a7, a8]).bind fun sunset =>
      (parseTime rest).bind fun sunrise =>
      some ⟨sunset, sunrise⟩
    else none
  | _ => none

/-- One iteration of `main`'s loop, observed externally: the sampled time,
the computed classification, and whether `Theme::set` was invoked. -/
structure TickEvent where
  now : TimeOfDay
  theme : Theme
  invoked : Bool
deriving DecidableEq

/-- The themes passed to the applier by a sequence of tick events. -/
def events_applied (events : List TickEvent) : List Theme :=
  (events.filter fun e => e.invoked).map fun e => e.theme

/-- The loop of `main` (`loop { sleep; let theme = location.get_theme(); if
theme != prev_theme { theme.set()?; } prev_theme = theme; }`), run over an
explicit list of sampled tick times.  `applyRes j` is the outcome of the
`j`-th applier invocation of the whole process (`main` enters the loop with
counter `1`, invocation `0` being the startup application).  Returns the tick
events, the value of `prev_theme` where the run stopped, and `Except.ok ()`
when every tick completed or the applier error that aborted the run. -/
def runTicks {ε : Type} (info : LocationInfo) (applyRes : Nat → Except ε Unit) :
    List TimeOfDay → Theme → Nat → List TickEvent × Theme × Except ε Unit
  | [], prev, _ => ([], prev, Except.ok ())
  | now :: rest, prev, k =>
    let theme := info.get_theme now
    if theme = prev then
      let r := runTicks info applyRes rest theme k
      (⟨now, theme, false⟩ :: r.1, r.2)
    else
      match applyRes k with
      | Except.error e => ([⟨now, theme, true⟩], prev, Except.error e)
      | Except.ok () =>
        let r := runTicks info applyRes rest theme (k + 1)
        (⟨now, theme, true⟩ :: r.1, r.2)

/-- `fn main`, after logger setup: `let location = LocationInfo::estimate()?;
let mut prev_theme = location.get_theme(); prev_theme.set()?; loop { ... }`.
`est` is the outcome of `LocationInfo::estimate`, `startNow` the time sampled
by the startup `get_theme`, `ticks` the times sampled by the loop.  Returns
the full list of themes passed to `Theme::set` in order, the tick events of
the loop, and the process outcome. -/
def mainRun {ε : Type} (est : Except ε LocationInfo) (startNow : TimeOfDay)
    (ticks : List TimeOfDay) (applyRes : Nat → Except ε Unit) :
    List Theme × List TickEvent × Except ε Unit :=
  match est with
  | Except.error e => ([], [], Except.error e)
  | Except.ok location =>
    let prev := location.get_theme startNow
    match applyRes 0 with
    | Except.error e => ([prev], [], Except.error e)
    | Except.ok () =>
      let r := runTicks location applyRes ticks prev 1
      (prev :: events_applied r.1, r.1, r.2.2)

/-- A fixed daylight pair used by concrete evaluations: sunset 18:00:00,
sunrise 06:00:00. -/
def demoInfo : LocationInfo := ⟨⟨18, 0, 0⟩, ⟨6, 0, 0⟩⟩

/-- Tick times sampled at 07:30, 19:00 and 19:30. -/
def demoTicks : List TimeOfDay := [⟨7, 30, 0⟩, ⟨19, 0, 0⟩, ⟨19, 30, 0⟩]

/-- Tick times sampled at 08:00, 20:00 and 21:00 — different instants with
the same classifications as `demoTicks` under `demoInfo`. -/
def demoTicksB : List TimeOfDay := [⟨8, 0, 0⟩, ⟨20, 0, 0⟩, ⟨21, 0, 0⟩]

/-- An applier whose invocations all succeed. -/
def okApplier : Nat → Except Unit Unit := fun _ => Except.ok ()

/-- An applier whose invocations all fail. -/
def errApplier : Nat → Except Unit Unit := fun _ => Except.error ()

/-- Claim C1: for every `LocationInfo` with `sunrise < sunset` and every
time-of-day `now`, `get_theme` returns `Day` iff `sunrise ≤ now ≤ sunset` and
`Night` otherwise; in particular it returns `Day` at the boundary instants
`now = sunrise` and `now = sunset`. -/
theorem get_theme_day_iff (info : LocationInfo) (now : TimeOfDay)
    (h : info.sunrise.toSecs < info.sunset.toSecs) :
    (info.get_theme now = Theme.Day ↔
      info.sunrise.toSecs ≤ now.toSecs ∧ now.toSecs ≤ info.sunset.toSecs) ∧
    (info.get_theme now = Theme.Night ↔
      ¬(info.sunrise.toSecs ≤ now.toSecs ∧ now.toSecs ≤ info.sunset.toSecs)) ∧
    info.get_theme info.sunrise = Theme.Day ∧
    info.get_theme info.sunset = Theme.Day := by
  unfold LocationInfo.get_theme
  refine ⟨?_, ?_, ?_, ?_⟩ <;> split_ifs <;> simp_all <;> omega

theorem get_theme_day_iff_witness :
    (LocationInfo.mk ⟨18, 0, 0⟩ ⟨6, 0, 0⟩).sunrise.toSecs <
        (LocationInfo.mk ⟨18, 0, 0⟩ ⟨6, 0, 0⟩).sunset.toSecs ∧
    ((LocationInfo.mk ⟨18, 0, 0⟩ ⟨6, 0, 0⟩).get_theme ⟨7, 0, 0⟩ = Theme.Day ↔
      (LocationInfo.mk ⟨18, 0, 0⟩ ⟨6, 0, 0⟩).sunrise.toSecs ≤
          (⟨7, 0, 0⟩ : TimeOfDay).toSecs ∧
        (⟨7, 0, 0⟩ : TimeOfDay).toSecs ≤
          (LocationInfo.mk ⟨18, 0, 0⟩ ⟨6, 0, 0⟩).sunset.toSecs) ∧
    ((LocationInfo.mk ⟨18, 0, 0⟩ ⟨6, 0, 0⟩).get_theme ⟨7, 0, 0⟩ = Theme.Night ↔
      ¬((LocationInfo.mk ⟨18, 0, 0⟩ ⟨6, 0, 0⟩).sunrise.toSecs ≤
          (⟨7, 0, 0⟩ : TimeOfDay).toSecs ∧
        (⟨7, 0, 0⟩ : TimeOfDay).toSecs ≤
          (LocationInfo.mk ⟨18, 0, 0⟩ ⟨6, 0, 0⟩).sunset.toSecs)) ∧
    (LocationInfo.mk ⟨18, 0, 0⟩ ⟨6, 0, 0⟩).get_theme
        (LocationInfo.mk ⟨18, 0, 0⟩ ⟨6, 0, 0⟩).sunrise = Theme.Day ∧
    (LocationInfo.mk ⟨18, 0, 0⟩ ⟨6, 0, 0⟩).get_theme
        (LocationInfo.mk ⟨18, 0, 0⟩ ⟨6, 0, 0⟩).sunset = Theme.Day :=
  ⟨by decide, get_theme_day_iff (LocationInfo.mk ⟨18, 0, 0⟩ ⟨6, 0, 0⟩) ⟨7, 0, 0⟩ (by decide)⟩

/-- Claim C3: the sentinel `LocationInfo` with `sunset = 23:59:59` and
`sunrise = 00:00:00` classifies every valid time-of-day `now` as `Day`,
including exactly `00:00:00`. -/
theorem sentinel_always_day (now : TimeOfDay) (hnow : now.isValid) :
    LocationInfo.get_theme ⟨⟨23, 59, 59⟩, ⟨0, 0, 0⟩⟩ now = Theme.Day := by
  obtain ⟨h1, h2, h3⟩ := hnow
  unfold LocationInfo.get_theme
  rw [if_neg]
  unfold TimeOfDay.toSecs
  simp only [not_or, not_lt]
  omega

theorem sentinel_always_day_witness :
    (⟨0, 0, 0⟩ : TimeOfDay).isValid ∧
    LocationInfo.get_theme ⟨⟨23, 59, 59⟩, ⟨0, 0, 0⟩⟩ ⟨0, 0, 0⟩ = Theme.Day :=
  ⟨by decide, sentinel_always_day ⟨0, 0, 0⟩ (by decide)⟩

/-- Claim C5: whenever the solar computation does not produce a normal
`Daylight` rise/set pair (continuous daylight or continuous darkness),
`estimate` substitutes exactly `sunset = 23:59:59`, `sunrise = 00:00:00`. -/
theorem estimate_sentinel (r : SunriseAndSet)
    (h : ∀ rise set, r ≠ SunriseAndSet.Daylight rise set) :
    LocationInfo.estimate r = ⟨⟨23, 59, 59⟩, ⟨0, 0, 0⟩⟩ := by
  cases r with
  | PolarNight => rfl
  | PolarDay => rfl
  | Daylight a b => exact absurd rfl (h a b)

theorem estimate_sentinel_witness :
    (∀ rise set, SunriseAndSet.PolarNight ≠ SunriseAndSet.Daylight rise set) ∧
    LocationInfo.estimate SunriseAndSet.PolarNight = ⟨⟨23, 59, 59⟩, ⟨0, 0, 0⟩⟩ :=
  ⟨fun _ _ h => SunriseAndSet.noConfusion h,
   estimate_sentinel SunriseAndSet.PolarNight (fun _ _ h => SunriseAndSet.noConfusion h)⟩

/-- Claim C8: whenever `sunrise` is strictly greater than `sunset`, no instant
satisfies `sunrise ≤ now ≤ sunset`, so `get_theme` returns `Night` for every
time-of-day `now`. -/
theorem inverted_always_night (info : LocationInfo) (now : TimeOfDay)
    (h : info.sunset.toSecs < info.sunrise.toSecs) :
    info.get_theme now = Theme.Night := by
  unfold LocationInfo.get_theme
  rw [if_pos]
  omega

theorem inverted_always_night_witness :
    (LocationInfo.mk ⟨6, 0, 0⟩ ⟨18, 0, 0⟩).sunset.toSecs <
        (LocationInfo.mk ⟨6, 0, 0⟩ ⟨18, 0, 0⟩).sunrise.toSecs ∧
    (LocationInfo.mk ⟨6, 0, 0⟩ ⟨18, 0, 0⟩).get_theme ⟨12, 0, 0⟩ = Theme.Night :=
  ⟨by decide, inverted_always_night (LocationInfo.mk ⟨6, 0, 0⟩ ⟨18, 0, 0⟩) ⟨12, 0, 0⟩ (by decide)⟩

lemma decodeDigit_digitChar (d : Nat) (hd : d < 10) :
    decodeDigit (Nat.digitChar d) = some d := by
  interval_cases d <;> decide

lemma parseTime_formatTime (t : TimeOfDay) (h : t.isValid) :
    parseTime (formatTime t) = some t := by
  obtain ⟨hh, mm, ss⟩ := t
  simp only [TimeOfDay.isValid] at h
  obtain ⟨h1, h2, h3⟩ := h
  have e1 : hh / 10 < 10 := by omega
  have e2 : mm / 10 < 10 := by omega
  have e3 : ss / 10 < 10 := by omega
  have e4 : hh % 10 < 10 := by omega
  have e5 : mm % 10 < 10 := by omega
  have e6 : ss % 10 < 10 := by omega
  have v : (⟨10 * (hh / 10) + hh % 10, 10 * (mm / 10) + mm % 10,
      10 * (ss / 10) + ss % 10⟩ : TimeOfDay) = ⟨hh, mm, ss⟩ := by
    simp only [TimeOfDay.mk.injEq]
    omega
  simp only [formatTime, encode2, List.cons_append, List.nil_append, parseTime,
    decodeDigit_digitChar _ e1, decodeDigit_digitChar _ e2,
    decodeDigit_digitChar _ e3, decodeDigit_digitChar _ e4,
    decodeDigit_digitChar _ e5, decodeDigit_digitChar _ e6,
    Option.some_bind, and_self, if_true, v]
  rw [if_pos]
  exact ⟨h1, h2, h3⟩

lemma load_store_eq (t1 t2 : TimeOfDay) :
    load (store ⟨t1, t2⟩) =
      (parseTime (formatTime t1)).bind fun sunset =>
      (parseTime (formatTime t2)).bind fun sunrise =>
      some ⟨sunset, sunrise⟩ :=
  rfl

/-- Claim C4: for every valid `LocationInfo`, storing it to the Location Cache
in the fixed `HH:MM:SS,HH:MM:SS` text format and loading it back yields the
original value, to the second. -/
theorem cache_roundtrip (info : LocationInfo)
    (hs : info.sunset.isValid) (hr : info.sunrise.isValid) :
    load (store info) = some info := by
  obtain ⟨sunset, sunrise⟩ := info
  rw [load_store_eq, parseTime_formatTime sunset hs, Option.some_bind,
    parseTime_formatTime sunrise hr, Option.some_bind]

theorem cache_roundtrip_witness :
    (LocationInfo.mk ⟨18, 30, 5⟩ ⟨6, 0, 59⟩).sunset.isValid ∧
    (LocationInfo.mk ⟨18, 30, 5⟩ ⟨6, 0, 59⟩).sunrise.isValid ∧
    load (store (LocationInfo.mk ⟨18, 30, 5⟩ ⟨6, 0, 59⟩)) =
      some (LocationInfo.mk ⟨18, 30, 5⟩ ⟨6, 0, 59⟩) :=
  ⟨by decide, by decide,
   cache_roundtrip (LocationInfo.mk ⟨18, 30, 5⟩ ⟨6, 0, 59⟩) (by decide) (by decide)⟩

lemma runTicks_nil {ε : Type} (info : LocationInfo) (a : Nat → Except ε Unit)
    (prev : Theme) (k : Nat) :
    runTicks info a [] prev k = ([], prev, Except.ok ()) :=
  rfl

lemma runTicks_cons_eq {ε : Type} (info : LocationInfo)
    (a : Nat → Except ε Unit) (now : TimeOfDay) (rest : List TimeOfDay)
    (prev : Theme) (k : Nat) (hth : info.get_theme now = prev) :
    runTicks info a (now :: rest) prev k =
      (⟨now, info.get_theme now, false⟩ ::
          (runTicks info a rest (info.get_theme now) k).1,
        (runTicks info a rest (info.get_theme now) k).2) := by
  simp only [runTicks]
  rw [if_pos hth]

lemma runTicks_cons_ne {ε : Type} (info : LocationInfo)
    (a : Nat → Except ε Unit) (now : TimeOfDay) (rest : List TimeOfDay)
    (prev : Theme) (k : Nat) (hth : info.get_theme now ≠ prev)
    (hk : a k = Except.ok ()) :
    runTicks info a (now :: rest) prev k =
      (⟨now, info.get_theme now, true⟩ ::
          (runTicks info a rest (info.get_theme now) (k + 1)).1,
        (runTicks info a rest (info.get_theme now) (k + 1)).2) := by
  simp only [runTicks]
  rw [if_neg hth, hk]

lemma runTicks_cons_err {ε : Type} (info : LocationInfo)
    (a : Nat → Except ε Unit) (now : TimeOfDay) (rest : List TimeOfDay)
    (prev : Theme) (k : Nat) (e : ε) (hth : info.get_theme now ≠ prev)
    (hk : a k = Except.error e) :
    runTicks info a (now :: rest) prev k =
      ([⟨now, info.get_theme now, true⟩], prev, Except.error e) := by
  simp only [runTicks]
  rw [if_neg hth, hk]

lemma events_applied_nil : events_applied [] = [] :=
  rfl

lemma events_applied_cons_false (now : TimeOfDay) (th : Theme)
    (l : List TickEvent) :
    events_applied (⟨now, th, false⟩ :: l) = events_applied l := by
  simp [events_applied]

lemma events_applied_cons_true (now : TimeOfDay) (th : Theme)
    (l : List TickEvent) :
    events_applied (⟨now, th, true⟩ :: l) = th :: events_applied l := by
  simp [events_applied]

lemma runTicks_ok_result {ε : Type} (info : LocationInfo)
    (a : Nat → Except ε Unit) (h : ∀ j, a j = Except.ok ()) :
    ∀ (ticks : List TimeOfDay) (prev : Theme) (k : Nat),
      (runTicks info a ticks prev k).2.2 = Except.ok ()
  | [], _, _ => rfl
  | now :: rest, prev, k => by
    by_cases hth : info.get_theme now = prev
    · rw [runTicks_cons_eq info a now rest prev k hth]
      exact runTicks_ok_result info a h rest _ k
    · rw [runTicks_cons_ne info a now rest prev k hth (h k)]
      exact runTicks_ok_result info a h rest _ (k + 1)

lemma runTicks_map_now {ε : Type} (info : LocationInfo)
    (a : Nat → Except ε Unit) (h : ∀ j, a j = Except.ok ()) :
    ∀ (ticks : List TimeOfDay) (prev : Theme) (k : Nat),
      (runTicks info a ticks prev k).1.map (fun e => e.now) = ticks
  | [], _, _ => rfl
  | now :: rest, prev, k => by
    by_cases hth : info.get_theme now = prev
    · rw [runTicks_cons_eq info a now rest prev k hth, List.map_cons,
        runTicks_map_now info a h rest _ k]
    · rw [runTicks_cons_ne info a now rest prev k hth (h k), List.map_cons,
        runTicks_map_now info a h rest _ (k + 1)]

lemma runTicks_map_theme {ε : Type} (info : LocationInfo)
    (a : Nat → Except ε Unit) (h : ∀ j, a j = Except.ok ()) :
    ∀ (ticks : List TimeOfDay) (prev : Theme) (k : Nat),
      (runTicks info a ticks prev k).1.map (fun e => e.theme) =
        ticks.map info.get_theme
  | [], _, _ => rfl
  | now :: rest, prev, k => by
    by_cases hth : info.get_theme now = prev
    · rw [runTicks_cons_eq info a now rest prev k hth, List.map_cons,
        List.map_cons, runTicks_map_theme info a h rest _ k]
    · rw [runTicks_cons_ne info a now rest prev k hth (h k), List.map_cons,
        List.map_cons, runTicks_map_theme info a h rest _ (k + 1)]

lemma runTicks_applied_destutter {ε : Type} (info : LocationInfo)
    (a : Nat → Except ε Unit) (h : ∀ j, a j = Except.ok ()) :
    ∀ (ticks : List TimeOfDay) (prev : Theme) (k : Nat),
      prev :: events_applied (runTicks info a ticks prev k).1 =
        (ticks.map info.get_theme).destutter' (· ≠ ·) prev
  | [], prev, _ => by
    simp [runTicks_nil, events_applied_nil, List.destutter'_nil]
  | now :: rest, prev, k => by
    by_cases hth : info.get_theme now = prev
    · rw [runTicks_cons_eq info a now rest prev k hth,
        events_applied_cons_false, List.map_cons, List.destutter'_cons,
        if_neg (by simp [hth]), hth]
      exact runTicks_applied_destutter info a h rest prev k
    · rw [runTicks_cons_ne info a now rest prev k hth (h k),
        events_applied_cons_true, List.map_cons, List.destutter'_cons,
        if_pos (Ne.symm hth),
        runTicks_applied_destutter info a h rest (info.get_theme now) (k + 1)]

lemma runTicks_chain {ε : Type} (info : LocationInfo)
    (a : Nat → Except ε Unit) (h : ∀ j, a j = Except.ok ()) :
    ∀ (ticks : List TimeOfDay) (prev : Theme) (k : Nat) (e0 : TickEvent),
      e0.theme = prev →
      List.Chain (fun e e' => e'.invoked = true ↔ e'.theme ≠ e.theme)
        e0 (runTicks info a ticks prev k).1
  | [], _, _, _, _ => List.Chain.nil
  | now :: rest, prev, k, e0, he0 => by
    by_cases hth : info.get_theme now = prev
    · rw [runTicks_cons_eq info a now rest prev k hth]
      refine List.Chain.cons ?_ (runTicks_chain info a h rest _ k _ rfl)
      simp [hth, he0]
    · rw [runTicks_cons_ne info a now rest prev k hth (h k)]
      refine List.Chain.cons ?_ (runTicks_chain info a h rest _ (k + 1) _ rfl)
      simp [he0, hth]

lemma getLast_map {α β : Type} (f : α → β) :
    ∀ (l : List α) (hne : l ≠ []) (hne' : l.map f ≠ []),
      (l.map f).getLast hne' = f (l.getLast hne)
  | [], hne, _ => absurd rfl hne
  | [x], _, _ => rfl
  | x :: y :: rest, _, _ =>
    calc ((x :: y :: rest).map f).getLast (by simp)
        = ((y :: rest).map f).getLast (by simp) :=
          List.getLast_cons (by simp)
      _ = f ((y :: rest).getLast (List.cons_ne_nil y rest)) :=
          getLast_map f (y :: rest) (List.cons_ne_nil y rest) (by simp)
      _ = f ((x :: y :: rest).getLast (List.cons_ne_nil x (y :: rest))) :=
          (congrArg f (List.getLast_cons (List.cons_ne_nil y rest))).symm

lemma runTicks_finalPrev {ε : Type} (info : LocationInfo)
    (a : Nat → Except ε Unit) (h : ∀ j, a j = Except.ok ()) :
    ∀ (ticks : List TimeOfDay) (prev : Theme) (k : Nat),
      (runTicks info a ticks prev k).2.1 =
        (prev :: ticks.map info.get_theme).getLast (List.cons_ne_nil _ _)
  | [], _, _ => rfl
  | now :: rest, prev, k => by
    by_cases hth : info.get_theme now = prev
    · rw [runTicks_cons_eq info a now rest prev k hth,
        runTicks_finalPrev info a h rest _ k, List.map_cons,
        List.getLast_cons (List.cons_ne_nil _ _)]
    · rw [runTicks_cons_ne info a now rest prev k hth (h k),
        runTicks_finalPrev info a h rest _ (k + 1), List.map_cons,
        List.getLast_cons (List.cons_ne_nil _ _)]

lemma runTicks_classification_only {ε : Type} (info info' : LocationInfo)
    (a : Nat → Except ε Unit) (h : ∀ j, a j = Except.ok ()) :
    ∀ (ticks ticks' : List TimeOfDay) (prev : Theme) (k : Nat),
      ticks'.map info'.get_theme = ticks.map info.get_theme →
      (runTicks info' a ticks' prev k).1.map (fun e => (e.theme, e.invoked)) =
        (runTicks info a ticks prev k).1.map (fun e => (e.theme, e.invoked))
  | [], [], _, _, _ => rfl
  | [], _ :: _, _, _, hmap => by simp at hmap
  | _ :: _, [], _, _, hmap => by simp at hmap
  | now :: rest, now' :: rest', prev, k, hmap => by
    simp only [List.map_cons, List.cons.injEq] at hmap
    obtain ⟨hhead, htail⟩ := hmap
    by_cases hth : info.get_theme now = prev
    · rw [runTicks_cons_eq info a now rest prev k hth,
        runTicks_cons_eq info' a now' rest' prev k (hhead.trans hth),
        List.map_cons, List.map_cons, hhead,
        runTicks_classification_only info info' a h rest rest' _ k htail]
    · rw [runTicks_cons_ne info a now rest prev k hth (h k),
        runTicks_cons_ne info' a now' rest' prev k
          (fun hc => hth ((hhead.symm.trans hc))) (h k),
        List.map_cons, List.map_cons, hhead,
        runTicks_classification_only info info' a h rest rest' _ (k + 1) htail]

/-- Claim C2: across any sequence of poll ticks with a fixed `LocationInfo`
and a succeeding applier, every tick completes, the events sample exactly the
given tick times and classifications, the sequence of themes passed to the
applier (startup application followed by the loop's invocations) is the
destutter of the sequence of sampled classifications — exactly one
application per maximal run of ticks sharing a classification, at the first
tick of the run — and a tick invokes the applier iff its classification
differs from the previous tick's (for the first tick, from the startup
classification), never when they agree. -/
theorem poller_transition_invariant {ε : Type} (info : LocationInfo)
    (a : Nat → Except ε Unit) (h : ∀ j, a j = Except.ok ())
    (startNow : TimeOfDay) (ticks : List TimeOfDay) (k : Nat) :
    (runTicks info a ticks (info.get_theme startNow) k).2.2 = Except.ok () ∧
    (runTicks info a ticks (info.get_theme startNow) k).1.map
        (fun e => e.now) = ticks ∧
    (runTicks info a ticks (info.get_theme startNow) k).1.map
        (fun e => e.theme) = ticks.map info.get_theme ∧
    info.get_theme startNow ::
        events_applied (runTicks info a ticks (info.get_theme startNow) k).1 =
      (info.get_theme startNow :: ticks.map info.get_theme).destutter (· ≠ ·) ∧
    List.Chain (fun e e' => e'.invoked = true ↔ e'.theme ≠ e.theme)
      ⟨startNow, info.get_theme startNow, true⟩
      (runTicks info a ticks (info.get_theme startNow) k).1 :=
  ⟨runTicks_ok_result info a h ticks _ k,
   runTicks_map_now info a h ticks _ k,
   runTicks_map_theme info a h ticks _ k,
   by
     rw [List.destutter_cons']
     exact runTicks_applied_destutter info a h ticks _ k,
   runTicks_chain info a h ticks _ k _ rfl⟩

/-- Claim C9: with a succeeding applier, after the loop processes a nonempty
list of ticks the remembered `prev_theme` equals the classification computed
on the last tick (so, by induction, after every completed tick it equals that
tick's classification), and the themes/invocations of a run depend only on
the sampled classifications: any tick list with the same classifications
produces the same invocation pattern, so classification changes between two
equally-classified samples cause no applier invocation. -/
theorem poller_prev_theme_eq_last {ε : Type} (info info' : LocationInfo)
    (a : Nat → Except ε Unit) (h : ∀ j, a j = Except.ok ())
    (ticks ticks' : List TimeOfDay) (prev : Theme) (k : Nat)
    (hne : ticks ≠ [])
    (hsame : ticks'.map info'.get_theme = ticks.map info.get_theme) :
    (runTicks info a ticks prev k).2.1 = info.get_theme (ticks.getLast hne) ∧
    (runTicks info' a ticks' prev k).1.map (fun e => (e.theme, e.invoked)) =
      (runTicks info a ticks prev k).1.map (fun e => (e.theme, e.invoked)) := by
  have hmapne : ticks.map info.get_theme ≠ [] := by
    cases ticks with
    | nil => exact absurd rfl hne
    | cons x xs => simp
  constructor
  · rw [runTicks_finalPrev info a h ticks prev k,
      List.getLast_cons hmapne, getLast_map info.get_theme ticks hne hmapne]
  · exact runTicks_classification_only info info' a h ticks ticks' prev k hsame

/-- Claim C6: once a `LocationInfo` is resolved and the initial application
succeeds, the sequence of themes passed to the applier begins with exactly
one startup application of the theme computed from it — whatever that
classification is — followed only by the loop's invocations; with no loop
ticks the applier is invoked exactly once. -/
theorem startup_applies_once {ε : Type} (info : LocationInfo)
    (startNow : TimeOfDay) (ticks : List TimeOfDay)
    (a : Nat → Except ε Unit) (h0 : a 0 = Except.ok ()) :
    (mainRun (Except.ok info) startNow ticks a).1 =
      info.get_theme startNow ::
        events_applied (runTicks info a ticks (info.get_theme startNow) 1).1 ∧
    (mainRun (Except.ok info) startNow [] a).1 = [info.get_theme startNow] := by
  constructor
  · simp only [mainRun]
    rw [h0]
  · simp only [mainRun]
    rw [h0]
    rw [runTicks_nil, events_applied_nil]

/-- Claim C7: a fault during initial location resolution is fatal — `mainRun`
propagates the error with no applier invocation, no tick and no default value
— and an applier error is fatal: a failed invocation ends the run at once
with that error, no further tick being processed, and the loop's outcome is
the process's outcome. -/
theorem resolution_and_applier_errors_fatal {ε : Type} :
    (∀ (e : ε) (startNow : TimeOfDay) (ticks : List TimeOfDay)
        (a : Nat → Except ε Unit),
      mainRun (Except.error e) startNow ticks a = ([], [], Except.error e)) ∧
    (∀ (info : LocationInfo) (a : Nat → Except ε Unit) (now : TimeOfDay)
        (rest : List TimeOfDay) (prev : Theme) (k : Nat) (e : ε),
      info.get_theme now ≠ prev → a k = Except.error e →
      runTicks info a (now :: rest) prev k =
        ([⟨now, info.get_theme now, true⟩], prev, Except.error e)) ∧
    (∀ (info : LocationInfo) (startNow : TimeOfDay) (ticks : List TimeOfDay)
        (a : Nat → Except ε Unit),
      a 0 = Except.ok () →
      (mainRun (Except.ok info) startNow ticks a).2.2 =
        (runTicks info a ticks (info.get_theme startNow) 1).2.2) := by
  refine ⟨fun e startNow ticks a => rfl, ?_, ?_⟩
  · intro info a now rest prev k e hth hk
    exact runTicks_cons_err info a now rest prev k e hth hk
  · intro info startNow ticks a h0
    simp only [mainRun]
    rw [h0]

/-- Claim C10: if the initial theme application fails, the process terminates
with that error before any poll tick: the applier was invoked exactly once
(with the startup theme) and the loop produced no tick event at all. -/
theorem initial_apply_error_stops {ε : Type} (info : LocationInfo)
    (startNow : TimeOfDay) (ticks : List TimeOfDay)
    (a : Nat → Except ε Unit) (e : ε) (h0 : a 0 = Except.error e) :
    mainRun (Except.ok info) startNow ticks a =
      ([info.get_theme startNow], [], Except.error e) := by
  simp only [mainRun]
  rw [h0]

theorem poller_transition_invariant_witness :
    (∀ j, okApplier j = Except.ok ()) ∧
    ((runTicks demoInfo okApplier demoTicks
          (demoInfo.get_theme ⟨7, 0, 0⟩) 1).2.2 = Except.ok () ∧
      (runTicks demoInfo okApplier demoTicks
          (demoInfo.get_theme ⟨7, 0, 0⟩) 1).1.map (fun e => e.now) = demoTicks ∧
      (runTicks demoInfo okApplier demoTicks
          (demoInfo.get_theme ⟨7, 0, 0⟩) 1).1.map (fun e => e.theme) =
        demoTicks.map demoInfo.get_theme ∧
      demoInfo.get_theme ⟨7, 0, 0⟩ ::
          events_applied (runTicks demoInfo okApplier demoTicks
            (demoInfo.get_theme ⟨7, 0, 0⟩) 1).1 =
        (demoInfo.get_theme ⟨7, 0, 0⟩ ::
          demoTicks.map demoInfo.get_theme).destutter (· ≠ ·) ∧
      List.Chain (fun e e' => e'.invoked = true ↔ e'.theme ≠ e.theme)
        ⟨⟨7, 0, 0⟩, demoInfo.get_theme ⟨7, 0, 0⟩, true⟩
        (runTicks demoInfo okApplier demoTicks
          (demoInfo.get_theme ⟨7, 0, 0⟩) 1).1) :=
  ⟨fun _ => rfl,
   poller_transition_invariant demoInfo okApplier (fun _ => rfl)
     ⟨7, 0, 0⟩ demoTicks 1⟩

theorem poller_prev_theme_eq_last_witness :
    (∀ j, okApplier j = Except.ok ()) ∧
    demoTicks ≠ [] ∧
    demoTicksB.map demoInfo.get_theme = demoTicks.map demoInfo.get_theme ∧
    ((runTicks demoInfo okApplier demoTicks Theme.Day 1).2.1 =
        demoInfo.get_theme (demoTicks.getLast (by decide)) ∧
      (runTicks demoInfo okApplier demoTicksB Theme.Day 1).1.map
          (fun e => (e.theme, e.invoked)) =
        (runTicks demoInfo okApplier demoTicks Theme.Day 1).1.map
          (fun e => (e.theme, e.invoked))) :=
  ⟨fun _ => rfl, by decide, by decide,
   poller_prev_theme_eq_last demoInfo demoInfo okApplier (fun _ => rfl)
     demoTicks demoTicksB Theme.Day 1 (by decide) (by decide)⟩

theorem startup_applies_once_witness :
    okApplier 0 = Except.ok () ∧
    ((mainRun (Except.ok demoInfo) ⟨7, 0, 0⟩ demoTicks okApplier).1 =
        demoInfo.get_theme ⟨7, 0, 0⟩ ::
          events_applied (runTicks demoInfo okApplier demoTicks
            (demoInfo.get_theme ⟨7, 0, 0⟩) 1).1 ∧
      (mainRun (Except.ok demoInfo) ⟨7, 0, 0⟩ [] okApplier).1 =
        [demoInfo.get_theme ⟨7, 0, 0⟩]) :=
  ⟨rfl, startup_applies_once demoInfo ⟨7, 0, 0⟩ demoTicks okApplier rfl⟩

theorem resolution_and_applier_errors_fatal_witness :
    mainRun (Except.error ()) ⟨7, 0, 0⟩ demoTicks okApplier =
      ([], [], Except.error ()) ∧
    (demoInfo.get_theme ⟨19, 0, 0⟩ ≠ Theme.Day ∧
      errApplier 1 = Except.error () ∧
      runTicks demoInfo errApplier [⟨19, 0, 0⟩] Theme.Day 1 =
        ([⟨⟨19, 0, 0⟩, demoInfo.get_theme ⟨19, 0, 0⟩, true⟩], Theme.Day,
          Except.error ())) ∧
    (okApplier 0 = Except.ok () ∧
      (mainRun (Except.ok demoInfo) ⟨7, 0, 0⟩ demoTicks okApplier).2.2 =
        (runTicks demoInfo okApplier demoTicks
          (demoInfo.get_theme ⟨7, 0, 0⟩) 1).2.2) :=
  ⟨(@resolution_and_applier_errors_fatal Unit).1 () ⟨7, 0, 0⟩ demoTicks
     okApplier,
   ⟨by decide, rfl,
    (@resolution_and_applier_errors_fatal Unit).2.1 demoInfo errApplier
      ⟨19, 0, 0⟩ [] Theme.Day 1 () (by decide) rfl⟩,
   ⟨rfl,
    (@resolution_and_applier_errors_fatal Unit).2.2 demoInfo ⟨7, 0, 0⟩
      demoTicks okApplier rfl⟩⟩

theorem initial_apply_error_stops_witness :
    errApplier 0 = Except.error () ∧
    mainRun (Except.ok demoInfo) ⟨7, 0, 0⟩ demoTicks errApplier =
      ([demoInfo.get_theme ⟨7, 0, 0⟩], [], Except.error ()) :=
  ⟨rfl, initial_apply_error_stops demoInfo ⟨7, 0, 0⟩ demoTicks errApplier () rfl⟩

end AutoNightMode
